import Mathlib

/-!
Shallow embedding of the BladeOptimizerLFR geometry pipeline
(`BladeGenerator.py` and `Assembly.py`).

Python floats are modelled as real numbers, numpy arrays as lists, and the
vectorized shape functions pointwise.  Fallible operations (numpy raising on
empty concatenations, the explicit `ValueError`s) are modelled with `Except`.
Mutation of a `Blade3D` object by `assemble_blades_on_cylinder` (the lazily
attached `z_coords` attribute) is modelled by explicit state passing.
Third-party mesh constructors (`trimesh.creation.cylinder`, the solid
stitcher's conversion to `trimesh.Trimesh`) enter as function parameters where
their internals are irrelevant; the trimesh post-processing calls are
modelled separately (see `dedup_faces`, `remove_unreferenced_vertices`,
`fill_holes`).
-/

namespace BladeOpt

noncomputable section

/-- The constant `1e-9` used as `eps` in `beta_distribution`
(BladeGenerator.py line 16). -/
def eps : ℝ := 1 / 1000000000

/-- `np.clip(x, lo, hi)`: clamp `x` into `[lo, hi]` (for `lo ≤ hi`). -/
def clip (x lo hi : ℝ) : ℝ := max lo (min x hi)

/-- `beta_distribution(x, alpha)` (BladeGenerator.py lines 8-20): the
normalized camber envelope
`γ(x) = x^a (1-x)^(1-a) / (a^a (1-a)^(1-a) + eps)` with
`a = np.clip(alpha, eps, 1-eps)`.  Real powers model numpy `**`. -/
def beta_distribution (x alpha : ℝ) : ℝ :=
  let a := clip alpha eps (1 - eps)
  let num := x ^ a * (1 - x) ^ (1 - a)
  let den := a ^ a * (1 - a) ^ (1 - a) + eps
  num / den

/-- `beta_distribution_extended(x, alpha, kappa)` (BladeGenerator.py
lines 23-37). -/
def beta_distribution_extended (x alpha kappa : ℝ) : ℝ :=
  let a := clip alpha eps (1 - eps)
  let num := x ^ (kappa * a) * (1 - x) ^ (kappa * (1 - a))
  let den := (a ^ a * (1 - a) ^ (1 - a) + eps) ^ kappa
  num / den

/-- `thickness_distribution(x, a, b, beta)` (BladeGenerator.py lines 40-65),
scalar form of the vectorized code: `a` is clipped to `[0.1, 0.3]`, `b` to
`[0.7, 0.9]`, the pair is sorted if out of order; `tau` starts at 1, the
region `x ≤ a` is overwritten by the cosine ramp (or 0 when `a ≤ 0`), then
the region `x ≥ b` is overwritten by the cosine decay (or 0 when `1 ≤ b`).
Because the trailing-edge write happens last in the source, it is tested
first here. -/
def thickness_distribution (x a b beta : ℝ) : ℝ :=
  let a1 := clip a (1 / 10) (3 / 10)
  let b1 := clip b (7 / 10) (9 / 10)
  let a2 := if a1 ≤ b1 then a1 else min a1 b1
  let b2 := if a1 ≤ b1 then b1 else max a1 b1
  if b2 ≤ x then
    (if b2 < 1 then ((1 + Real.cos (Real.pi * (x - b2) / (1 - b2))) / 2) ^ beta else 0)
  else if x ≤ a2 then
    (if 0 < a2 then ((1 - Real.cos (Real.pi * x / a2)) / 2) ^ beta else 0)
  else 1

/-- `tapered_thickness_distribution(x, a, b, beta, taper)` (BladeGenerator.py
lines 68-77): `τ(x) * (1 - taper·x)`. -/
def tapered_thickness_distribution (x a b beta taper : ℝ) : ℝ :=
  thickness_distribution x a b beta * (1 - taper * x)

/-- One spanwise layer parameter record (`span_layers` entries).  Optional
dictionary keys (`kappa`, `taper`, `radius`) are `Option`s; `mode` defaults to
`"basic"` at construction in the source, so it is a plain field here. -/
structure SpanLayer where
  theta0 : ℝ
  h_max : ℝ
  t_max : ℝ
  alpha : ℝ
  a : ℝ
  b : ℝ
  beta : ℝ
  mode : String
  kappa : Option ℝ
  taper : Option ℝ
  radius : Option ℝ

/-- A placeholder layer used only as the (never reached) `getD` fallback when
indexing a layer list inside its length bound. -/
def defaultLayer : SpanLayer := ⟨0, 0, 0, 0, 0, 0, 0, "basic", none, none, none⟩

/-- The constructor state of `Blade3D.__init__` (BladeGenerator.py
lines 86-103), without the derived surface caches. -/
structure Blade3D where
  layers : List SpanLayer
  Theta : ℝ
  H : ℝ
  z0 : ℝ
  hub_radius : ℝ
  shroud_radius : ℝ

/-- `np.linspace(0.0, 1.0, N)`: the chordwise sample `k/(N-1)` for
`k = 0..N-1` (for `N = 1` numpy yields `[0.0]`, matching `0/0 = 0` here). -/
def linspace01 (N : ℕ) : List ℝ :=
  (List.range N).map fun k : ℕ => (k : ℝ) / ((N : ℝ) - 1)

/-- `Blade3D._layer_radius` (BladeGenerator.py lines 105-110). -/
def layer_radius (bl : Blade3D) (i n : ℕ) : ℝ :=
  match (bl.layers.getD i defaultLayer).radius with
  | some r => r
  | none =>
    let w : ℝ := if n ≤ 1 then 0 else (i : ℝ) / ((n : ℝ) - 1)
    (1 - w) * bl.hub_radius + w * bl.shroud_radius

/-- Camber selection in `generate_surface` (lines 132-137): extended mode
takes `kappa` with dictionary default 1.5, otherwise the basic envelope. -/
def layer_gamma (li : SpanLayer) (x : ℝ) : ℝ :=
  if li.mode = "extended" then beta_distribution_extended x li.alpha (li.kappa.getD (3 / 2))
  else beta_distribution x li.alpha

/-- Thickness selection in `generate_surface` (lines 139-144): tapered mode
takes `taper` with dictionary default 0.5, otherwise the basic profile. -/
def layer_tau (li : SpanLayer) (x : ℝ) : ℝ :=
  if li.mode = "tapered" then
    tapered_thickness_distribution x li.a li.b li.beta (li.taper.getD (1 / 2))
  else thickness_distribution x li.a li.b li.beta

/-- The camber line height `z_center` of one layer (line 147). -/
def z_center (bl : Blade3D) (li : SpanLayer) (x : ℝ) : ℝ :=
  bl.z0 + x * bl.H - li.h_max * layer_gamma li x

/-- One layer's vertex ring (lines 146-157): `s = 1` gives the upper surface,
`s = -1` the lower, `s = 0` the camber center. -/
def layer_verts (bl : Blade3D) (i N : ℕ) (s : ℝ) : List (ℝ × ℝ × ℝ) :=
  let li := bl.layers.getD i defaultLayer
  let R := layer_radius bl i bl.layers.length
  (linspace01 N).map fun x =>
    (Real.cos (li.theta0 + x * bl.Theta) * R,
     Real.sin (li.theta0 + x * bl.Theta) * R,
     z_center bl li x + s * li.t_max * layer_tau li x)

/-- `np.vstack` of all per-layer upper vertex rings (lines 117-159). -/
def verticesUpper (bl : Blade3D) (N : ℕ) : List (ℝ × ℝ × ℝ) :=
  (List.range bl.layers.length).flatMap fun i => layer_verts bl i N 1

/-- `np.vstack` of all per-layer lower vertex rings (lines 117-160). -/
def verticesLower (bl : Blade3D) (N : ℕ) : List (ℝ × ℝ × ℝ) :=
  (List.range bl.layers.length).flatMap fun i => layer_verts bl i N (-1)

/-- `np.vstack` of all per-layer camber-center vertex rings (lines 117-161). -/
def verticesCenter (bl : Blade3D) (N : ℕ) : List (ℝ × ℝ × ℝ) :=
  (List.range bl.layers.length).flatMap fun i => layer_verts bl i N 0

/-- `build_faces` (BladeGenerator.py lines 163-174): the quad
`(v0, v1, v2, v3)` between layers `i`, `i+1` at chord steps `j`, `j+1`.
The leading `4` written into the flat pyvista array is a face-size marker,
not a vertex index, so a face is a 4-tuple of vertex indices here. -/
def build_faces (N L : ℕ) : List (ℕ × ℕ × ℕ × ℕ) :=
  (List.range (L - 1)).flatMap fun i =>
    (List.range (N - 1)).map fun j =>
      (i * N + j, i * N + j + 1, (i + 1) * N + j + 1, (i + 1) * N + j)

/-- The generic exceptions `generate_surface` can raise: `np.vstack` of an
empty list (no layers) and `np.hstack` of an empty face list (fewer than two
layers or fewer than two chord points).  Both are plain `ValueError`s in
numpy; the source defines no dedicated error kind. -/
inductive GenError
  | emptyVstack
  | emptyHstack
deriving DecidableEq

/-- The derived surface caches populated by `generate_surface`. -/
structure SurfaceData where
  vertices_upper : List (ℝ × ℝ × ℝ)
  vertices_lower : List (ℝ × ℝ × ℝ)
  vertices_center : List (ℝ × ℝ × ℝ)
  faces_upper : List (ℕ × ℕ × ℕ × ℕ)
  faces_lower : List (ℕ × ℕ × ℕ × ℕ)
  faces_center : List (ℕ × ℕ × ℕ × ℕ)

/-- `Blade3D.generate_surface` (BladeGenerator.py lines 112-178).  The vertex
stacks are built first; `np.vstack` raises if there are no layers, and the
shared `build_faces` result raises in `np.hstack` when the face list is
empty.  All three face arrays are built by identical calls. -/
def generate_surface (bl : Blade3D) (N : ℕ) : Except GenError SurfaceData :=
  if bl.layers.length = 0 then .error .emptyVstack
  else if (build_faces N bl.layers.length).length = 0 then .error .emptyHstack
  else
    .ok { vertices_upper := verticesUpper bl N
          vertices_lower := verticesLower bl N
          vertices_center := verticesCenter bl N
          faces_upper := build_faces N bl.layers.length
          faces_lower := build_faces N bl.layers.length
          faces_center := build_faces N bl.layers.length }

/-- A triangulated mesh: vertex coordinates and triangle index triples. -/
structure Mesh where
  verts : List (ℝ × ℝ × ℝ)
  faces : List (ℕ × ℕ × ℕ)

/-- `apply_translation([0, 0, dz])` on a mesh. -/
def translateZ (m : Mesh) (dz : ℝ) : Mesh :=
  { m with verts := m.verts.map fun p => (p.1, p.2.1, p.2.2 + dz) }

/-- `apply_transform(rotation_matrix(ang, [0, 0, 1]))`: rotate about Z. -/
def rotateZ (m : Mesh) (ang : ℝ) : Mesh :=
  { m with verts := m.verts.map fun p =>
      (Real.cos ang * p.1 - Real.sin ang * p.2.1,
       Real.sin ang * p.1 + Real.cos ang * p.2.1,
       p.2.2) }

/-- `trimesh.util.concatenate` of two meshes: vertex arrays appended, the
second mesh's face indices offset by the first vertex count. -/
def mesh_concat2 (m1 m2 : Mesh) : Mesh :=
  ⟨m1.verts ++ m2.verts,
   m1.faces ++ m2.faces.map fun f =>
     (f.1 + m1.verts.length, f.2.1 + m1.verts.length, f.2.2 + m1.verts.length)⟩

/-- `trimesh.util.concatenate` of a mesh list. -/
def mesh_concat (ms : List Mesh) : Mesh := ms.foldl mesh_concat2 ⟨[], []⟩

/-- A blade whose surface caches are populated, plus the `z_coords` attribute
that `assemble_blades_on_cylinder` lazily attaches (Assembly.py lines 30-32);
`none` models the attribute being absent. -/
structure BladeState where
  vertices_upper : List (ℝ × ℝ × ℝ)
  vertices_lower : List (ℝ × ℝ × ℝ)
  vertices_center : List (ℝ × ℝ × ℝ)
  faces_upper : List (ℕ × ℕ × ℕ × ℕ)
  faces_lower : List (ℕ × ℕ × ℕ × ℕ)
  faces_center : List (ℕ × ℕ × ℕ × ℕ)
  z_coords : Option (List ℝ)

/-- The failures of `assemble_blades_on_cylinder`: the explicit `ValueError`
for a blade span exceeding the cylinder height (Assembly.py line 39), and
numpy's error when `.max()` is taken of an empty z array. -/
inductive AsmError
  | spanExceedsHeight
  | emptyArray
deriving DecidableEq

/-- `np.concatenate([vertices_upper[:, 2], vertices_lower[:, 2]])`
(Assembly.py line 31). -/
def blade_z_all (b : BladeState) : List ℝ :=
  b.vertices_upper.map (fun p => p.2.2) ++ b.vertices_lower.map fun p => p.2.2

/-- The blade axial span `z_coords.max() - z_coords.min()` computed from the
surface caches (Assembly.py line 37); 0 on empty caches (where the source
would raise before reaching the subtraction). -/
def cached_span (b : BladeState) : ℝ :=
  match blade_z_all b with
  | [] => 0
  | z :: zs => zs.foldl max z - zs.foldl min z

/-- The centering shift `z_base + height/2 - (z_min + span/2)`
(Assembly.py line 40), from the cached z extent. -/
def blade_z_shift (b : BladeState) (height z_base : ℝ) : ℝ :=
  match blade_z_all b with
  | [] => 0
  | z :: zs =>
    z_base + height / 2 - (zs.foldl min z + (zs.foldl max z - zs.foldl min z) / 2)

/-- The merged output mesh of `assemble_blades_on_cylinder` (Assembly.py
lines 34-50): the translated hub cylinder followed by `n_blades` copies of
the blade mesh, each translated by the centering shift and then rotated by
`2π·i/n_blades`.  `mkCylinder` stands for the library call
`trimesh.creation.cylinder(radius, height)` and `solidify` for the blade
mesh production (`_generate_solid_from_surfaces`), whose internals the
assembler does not inspect. -/
def assembled_mesh (mkCylinder : ℝ → ℝ → Mesh) (solidify : BladeState → Mesh)
    (b : BladeState) (n_blades : ℕ) (radius height z_base : ℝ) : Mesh :=
  mesh_concat
    (translateZ (mkCylinder radius height) (z_base + height / 2) ::
      (List.range n_blades).map fun i : ℕ =>
        rotateZ (translateZ (solidify b) (blade_z_shift b height z_base))
          (2 * Real.pi * (i : ℝ) / (n_blades : ℝ)))

/-- `assemble_blades_on_cylinder` (Assembly.py lines 11-50), for the
populated-cache case.  Returns the result together with the updated blade
state: the function mutates the blade only by attaching `z_coords` (when
absent) before the span check, which is modelled by the returned state. -/
def assemble_blades_on_cylinder (mkCylinder : ℝ → ℝ → Mesh)
    (solidify : BladeState → Mesh) (b : BladeState) (n_blades : ℕ)
    (radius height z_base : ℝ) : Except AsmError Mesh × BladeState :=
  let cylinder := translateZ (mkCylinder radius height) (z_base + height / 2)
  let blade_mesh := solidify b
  let zAll := match b.z_coords with
    | some z => z
    | none => blade_z_all b
  let res : Except AsmError Mesh :=
    match zAll with
    | [] => .error .emptyArray
    | z :: zs =>
      let zmax := zs.foldl max z
      let zmin := zs.foldl min z
      let span := zmax - zmin
      if height < span then .error .spanExceedsHeight
      else
        let z_shift := z_base + height / 2 - (zmin + span / 2)
        let copies := (List.range n_blades).map fun i : ℕ =>
          rotateZ (translateZ blade_mesh z_shift) (2 * Real.pi * (i : ℝ) / (n_blades : ℝ))
        .ok (mesh_concat (cylinder :: copies))
  (res, { b with z_coords := some zAll })

/-- The failures of `create_diffuser`: unknown `position` and unknown
`shape` strings (Assembly.py lines 92-93, 130-131, 146-147). -/
inductive DiffError
  | invalidPosition
  | unknownShape
deriving DecidableEq

/-- Azimuth divisions of the hemisphere grid (`n_phi = 128`). -/
def n_phi : ℕ := 128

/-- Polar divisions of the hemisphere grid (`n_theta = 64`). -/
def n_theta : ℕ := 64

/-- `np.linspace(0, π/2, n_theta)` at index `i`. -/
def hemi_theta (i : ℕ) : ℝ := Real.pi / 2 * (i : ℝ) / ((n_theta : ℝ) - 1)

/-- `np.linspace(0, 2π, n_phi)` at index `j`. -/
def hemi_phi (j : ℕ) : ℝ := 2 * Real.pi * (j : ℝ) / ((n_phi : ℝ) - 1)

/-- The hemisphere z formula (Assembly.py lines 86-91):
`-R·cos θ + z_base + R` for `position = "bottom"`, `R·cos θ + z_base` for
`position = "top"`. -/
def hemi_z (radius_base z_base : ℝ) (isBottom : Bool) (th : ℝ) : ℝ :=
  if isBottom then -radius_base * Real.cos th + z_base + radius_base
  else radius_base * Real.cos th + z_base

/-- One hemisphere grid vertex (Assembly.py lines 83-95), row `i` (polar),
column `j` (azimuth). -/
def hemi_vert (radius_base z_base : ℝ) (isBottom : Bool) (i j : ℕ) : ℝ × ℝ × ℝ :=
  (radius_base * Real.sin (hemi_theta i) * Real.cos (hemi_phi j),
   radius_base * Real.sin (hemi_theta i) * Real.sin (hemi_phi j),
   hemi_z radius_base z_base isBottom (hemi_theta i))

/-- The flattened hemisphere vertex grid (row-major over polar then
azimuth, matching `meshgrid(phi, theta)` and `.flatten()`). -/
def hemi_verts (radius_base z_base : ℝ) (isBottom : Bool) : List (ℝ × ℝ × ℝ) :=
  (List.range n_theta).flatMap fun i =>
    (List.range n_phi).map fun j => hemi_vert radius_base z_base isBottom i j

/-- The hemisphere faces (Assembly.py lines 98-113), two triangles per grid
quad plus the explicit wrap-around column. -/
def hemi_faces : List (ℕ × ℕ × ℕ) :=
  (List.range (n_theta - 1)).flatMap fun i =>
    ((List.range (n_phi - 1)).flatMap fun j =>
      [(i * n_phi + j, i * n_phi + j + 1, (i + 1) * n_phi + j + 1),
       (i * n_phi + j, (i + 1) * n_phi + j + 1, (i + 1) * n_phi + j)]) ++
    [(i * n_phi + (n_phi - 1), i * n_phi, (i + 1) * n_phi),
     (i * n_phi + (n_phi - 1), (i + 1) * n_phi, (i + 1) * n_phi + (n_phi - 1))]

/-- Grid resolution of the paraboloid branch (`n = 128`). -/
def parab_n : ℕ := 128

/-- One paraboloid grid vertex (Assembly.py lines 117-134): radial index `j`,
azimuth index `i` (`meshgrid(r, phi)` flattened row-major). -/
def parab_vert (radius_base height z_base : ℝ) (isBottom : Bool) (i j : ℕ) : ℝ × ℝ × ℝ :=
  let r := radius_base * (j : ℝ) / ((parab_n : ℝ) - 1)
  let ph := 2 * Real.pi * (i : ℝ) / ((parab_n : ℝ) - 1)
  (r * Real.cos ph, r * Real.sin ph,
   (if isBottom then height * (r / radius_base) ^ (2 : ℕ)
    else height * (1 - (r / radius_base) ^ (2 : ℕ))) + z_base)

/-- The flattened paraboloid vertex grid. -/
def parab_verts (radius_base height z_base : ℝ) (isBottom : Bool) : List (ℝ × ℝ × ℝ) :=
  (List.range parab_n).flatMap fun i =>
    (List.range parab_n).map fun j => parab_vert radius_base height z_base isBottom i j

/-- The paraboloid faces (Assembly.py lines 135-143): two triangles per grid
quad, no azimuthal wrap. -/
def parab_faces : List (ℕ × ℕ × ℕ) :=
  (List.range (parab_n - 1)).flatMap fun i =>
    (List.range (parab_n - 1)).flatMap fun j =>
      [(i * parab_n + j, i * parab_n + j + 1, (i + 1) * parab_n + j + 1),
       (i * parab_n + j, (i + 1) * parab_n + j + 1, (i + 1) * parab_n + j)]

/-- `create_diffuser` (Assembly.py lines 53-148).  `radius_top` is accepted
but never read by the source; the hemisphere branch also never reads
`height`. -/
def create_diffuser (shape : String) (radius_base radius_top height z_base : ℝ)
    (position : String) : Except DiffError Mesh :=
  if shape = "hemisphere" then
    if position = "bottom" then .ok ⟨hemi_verts radius_base z_base true, hemi_faces⟩
    else if position = "top" then .ok ⟨hemi_verts radius_base z_base false, hemi_faces⟩
    else .error .invalidPosition
  else if shape = "paraboloid" then
    if position = "bottom" then
      .ok ⟨parab_verts radius_base height z_base true, parab_faces⟩
    else if position = "top" then
      .ok ⟨parab_verts radius_base height z_base false, parab_faces⟩
    else .error .invalidPosition
  else .error .unknownShape

/-- Sort a face's three vertex indices; two faces are duplicates when they
have the same sorted index triple (trimesh compares sorted face rows). -/
def sort3 (f : ℕ × ℕ × ℕ) : ℕ × ℕ × ℕ :=
  (min f.1 (min f.2.1 f.2.2),
   f.1 + f.2.1 + f.2.2 - min f.1 (min f.2.1 f.2.2) - max f.1 (max f.2.1 f.2.2),
   max f.1 (max f.2.1 f.2.2))

/-- Modelled from the spec: the body of `trimesh.Trimesh.remove_duplicate_faces`
(called at BladeGenerator.py line 269) is third-party library code absent from
src; the spec describes the step as "remove duplicate faces".  Keeps the first
face of every duplicate class. -/
def dedup_faces_aux (seen : List (ℕ × ℕ × ℕ)) :
    List (ℕ × ℕ × ℕ) → List (ℕ × ℕ × ℕ)
  | [] => []
  | f :: fs =>
    if seen.any (fun g => sort3 g == sort3 f) then dedup_faces_aux seen fs
    else f :: dedup_faces_aux (f :: seen) fs

/-- Duplicate-face removal over a whole face list. -/
def dedup_faces (l : List (ℕ × ℕ × ℕ)) : List (ℕ × ℕ × ℕ) :=
  dedup_faces_aux [] l

/-- Duplicate-face removal on a mesh. -/
def dedup_mesh (m : Mesh) : Mesh := ⟨m.verts, dedup_faces m.faces⟩

/-- Whether vertex index `v` is referenced by some face of `fs`. -/
def face_refs (v : ℕ) (fs : List (ℕ × ℕ × ℕ)) : Bool :=
  fs.any fun f => f.1 == v || f.2.1 == v || f.2.2 == v

/-- Modelled from the spec: the body of
`trimesh.Trimesh.remove_unreferenced_vertices` (BladeGenerator.py line 270) is
third-party library code absent from src; the spec describes the step as
"remove vertices unreferenced by any face".  Referenced vertices are kept in
order and faces reindexed accordingly. -/
def remove_unreferenced_vertices (m : Mesh) : Mesh :=
  let keep := (List.range m.verts.length).filter fun v => face_refs v m.faces
  let reindex := fun v => ((List.range v).filter fun u => face_refs u m.faces).length
  ⟨keep.map fun v => m.verts.getD v (0, 0, 0),
   m.faces.map fun f => (reindex f.1, reindex f.2.1, reindex f.2.2)⟩

/-- The unordered edge `{u, v}` occurs among the three edges of face `f`. -/
def edge_in_face (u v : ℕ) (f : ℕ × ℕ × ℕ) : Bool :=
  (f.1 == u && f.2.1 == v) || (f.1 == v && f.2.1 == u) ||
  (f.2.1 == u && f.2.2 == v) || (f.2.1 == v && f.2.2 == u) ||
  (f.1 == u && f.2.2 == v) || (f.1 == v && f.2.2 == u)

/-- Number of faces of `fs` containing the unordered edge `{u, v}`. -/
def edge_count (fs : List (ℕ × ℕ × ℕ)) (u v : ℕ) : ℕ :=
  (fs.filter fun f => edge_in_face u v f).length

/-- A boundary edge: referenced by exactly one face. -/
def boundary_edge (fs : List (ℕ × ℕ × ℕ)) (u v : ℕ) : Bool :=
  edge_count fs u v == 1

/-- Modelled from the spec: triangular boundary holes.  For each index triple
`a < b < c` (below the vertex count) whose three edges are all boundary
edges, hole filling adds the closing triangle. -/
def tri_holes (V : ℕ) (fs : List (ℕ × ℕ × ℕ)) : List (ℕ × ℕ × ℕ) :=
  (List.range V).flatMap fun a =>
    (List.range V).flatMap fun b =>
      (List.range V).filterMap fun c =>
        if a < b ∧ b < c ∧ boundary_edge fs a b = true ∧ boundary_edge fs b c = true ∧
            boundary_edge fs a c = true
        then some (a, b, c) else none

/-- The two triangles closing a quadrilateral boundary hole on the four
indices `a < b < c < d`, testing the three possible cyclic orders; empty when
no order makes a boundary 4-cycle. -/
def quad_fill (fs : List (ℕ × ℕ × ℕ)) (a b c d : ℕ) : List (ℕ × ℕ × ℕ) :=
  if boundary_edge fs a b = true ∧ boundary_edge fs b c = true ∧
      boundary_edge fs c d = true ∧ boundary_edge fs a d = true then
    [(a, b, c), (a, c, d)]
  else if boundary_edge fs a b = true ∧ boundary_edge fs b d = true ∧
      boundary_edge fs c d = true ∧ boundary_edge fs a c = true then
    [(a, b, d), (a, d, c)]
  else if boundary_edge fs a c = true ∧ boundary_edge fs b c = true ∧
      boundary_edge fs b d = true ∧ boundary_edge fs a d = true then
    [(a, c, b), (a, b, d)]
  else []

/-- Modelled from the spec: quadrilateral boundary holes, filled with two
triangles each. -/
def quad_holes (V : ℕ) (fs : List (ℕ × ℕ × ℕ)) : List (ℕ × ℕ × ℕ) :=
  (List.range V).flatMap fun a =>
    (List.range V).flatMap fun b =>
      (List.range V).flatMap fun c =>
        (List.range V).flatMap fun d =>
          if a < b ∧ b < c ∧ c < d then quad_fill fs a b c d else []

/-- Modelled from the spec: `trimesh.Trimesh.fill_holes` (BladeGenerator.py
line 271) is third-party library code absent from src; the spec describes the
step as "fill any remaining small holes (gaps left where triangulation is
inconsistent at boundary seams)".  Small holes are triangular and
quadrilateral boundary cycles; filling appends their closing triangles. -/
def fill_holes (m : Mesh) : Mesh :=
  ⟨m.verts,
   m.faces ++ tri_holes m.verts.length m.faces ++ quad_holes m.verts.length m.faces⟩

/-- The post-processing pipeline of `_generate_solid_from_surfaces`
(BladeGenerator.py lines 269-271): remove duplicate faces, remove
unreferenced vertices, fill holes. -/
def post_process (m : Mesh) : Mesh :=
  fill_holes (remove_unreferenced_vertices (dedup_mesh m))

/-- The solid mesh assembled by `Blade3D._generate_solid_from_surfaces` with
`mode = "both"` (BladeGenerator.py lines 200-268) before post-processing:
upper and lower point clouds concatenated, upper-surface triangles,
lower-surface triangles with reversed winding at an index offset, and the
per-layer side walls connecting upper to lower. -/
def solid_raw (upper lower : List (ℝ × ℝ × ℝ)) (num_layers : ℕ) : Mesh :=
  let N := upper.length / num_layers
  let offset := upper.length
  let upper_faces := (List.range (num_layers - 1)).flatMap fun i =>
    (List.range (N - 1)).flatMap fun j =>
      [(i * N + j, i * N + j + 1, (i + 1) * N + j + 1),
       (i * N + j, (i + 1) * N + j + 1, (i + 1) * N + j)]
  let lower_faces := (List.range (num_layers - 1)).flatMap fun i =>
    (List.range (N - 1)).flatMap fun j =>
      [(i * N + j + offset, (i + 1) * N + j + 1 + offset, i * N + j + 1 + offset),
       (i * N + j + offset, (i + 1) * N + j + offset, (i + 1) * N + j + 1 + offset)]
  let side_faces := (List.range num_layers).flatMap fun i =>
    (List.range (N - 1)).flatMap fun j =>
      [(i * N + j, i * N + j + 1, i * N + j + 1 + offset),
       (i * N + j, i * N + j + 1 + offset, i * N + j + offset)]
  ⟨upper ++ lower, upper_faces ++ lower_faces ++ side_faces⟩

/-- `_generate_solid_from_surfaces` with `mode = "both"`: the stitched solid
after the trimesh post-processing. -/
def generate_solid_from_surfaces (upper lower : List (ℝ × ℝ × ℝ))
    (num_layers : ℕ) : Mesh :=
  post_process (solid_raw upper lower num_layers)

/-- A concrete two-layer blade used as test input. -/
def twoLayerBlade : Blade3D :=
  ⟨[defaultLayer, defaultLayer], 0, 1, 0, 1, 2⟩

/-- A concrete populated blade state: a one-point upper cache at `z = 0` and
a one-point lower cache at `z = 0.21`, `z_coords` not yet attached. -/
def bladeStateTest : BladeState :=
  ⟨[(0, 0, 0)], [(0, 0, 21 / 100)], [], [], [], [], none⟩

/-- A trivial stand-in for `trimesh.creation.cylinder`. -/
def mkCylinderTest : ℝ → ℝ → Mesh := fun _ _ => ⟨[], []⟩

/-- A trivial stand-in for the blade solidification step. -/
def solidifyTest : BladeState → Mesh := fun _ => ⟨[], []⟩

/-- A concrete 2-layer, 2-point upper point cloud for the solid stitcher. -/
def upperCloudTest : List (ℝ × ℝ × ℝ) :=
  [(0, 0, 0), (1, 0, 0), (0, 1, 0), (1, 1, 0)]

/-- A concrete 2-layer, 2-point lower point cloud for the solid stitcher. -/
def lowerCloudTest : List (ℝ × ℝ × ℝ) :=
  [(0, 0, 1), (1, 0, 1), (0, 1, 1), (1, 1, 1)]

/-- The componentwise bound of a quad face's vertex indices. -/
def quad_lt (q : ℕ × ℕ × ℕ × ℕ) (m : ℕ) : Prop :=
  q.1 < m ∧ q.2.1 < m ∧ q.2.2.1 < m ∧ q.2.2.2 < m

end

section Theorems

/-- The rising cosine ramp raised to any real power is nonnegative. -/
lemma cos_ramp_nonneg (t β : ℝ) : 0 ≤ ((1 - Real.cos t) / 2) ^ β :=
  Real.rpow_nonneg (by nlinarith [Real.cos_le_one t]) β

/-- The falling cosine decay raised to any real power is nonnegative. -/
lemma cos_decay_nonneg (t β : ℝ) : 0 ≤ ((1 + Real.cos t) / 2) ^ β :=
  Real.rpow_nonneg (by nlinarith [Real.neg_one_le_cos t]) β

/-- The thickness profile never goes negative, in any branch. -/
lemma thickness_nonneg (x a b beta : ℝ) : 0 ≤ thickness_distribution x a b beta := by
  simp only [thickness_distribution]
  split_ifs
  all_goals first
    | exact cos_decay_nonneg _ _
    | exact cos_ramp_nonneg _ _
    | norm_num

/-- C10: the returned mesh of `create_diffuser` never depends on
`radius_top`; for the hemisphere shape it is also independent of `height`.
The source reads neither parameter in the relevant branches. -/
theorem create_diffuser_ignores_radius_top (shape : String)
    (radius_base radius_top radius_top' height height' z_base : ℝ)
    (position : String) :
    create_diffuser shape radius_base radius_top height z_base position =
      create_diffuser shape radius_base radius_top' height z_base position ∧
    create_diffuser "hemisphere" radius_base radius_top height z_base position =
      create_diffuser "hemisphere" radius_base radius_top' height' z_base position := by
  constructor
  · rfl
  · simp [create_diffuser]

/-- C9: `assemble_blades_on_cylinder` returns the blade with all six surface
cache arrays unchanged; its only mutation is attaching `z_coords`. -/
theorem assemble_preserves_blade_caches (mkCylinder : ℝ → ℝ → Mesh)
    (solidify : BladeState → Mesh) (b : BladeState) (n_blades : ℕ)
    (radius height z_base : ℝ) :
    (assemble_blades_on_cylinder mkCylinder solidify b n_blades radius height
        z_base).2.vertices_upper = b.vertices_upper ∧
    (assemble_blades_on_cylinder mkCylinder solidify b n_blades radius height
        z_base).2.vertices_lower = b.vertices_lower ∧
    (assemble_blades_on_cylinder mkCylinder solidify b n_blades radius height
        z_base).2.vertices_center = b.vertices_center ∧
    (assemble_blades_on_cylinder mkCylinder solidify b n_blades radius height
        z_base).2.faces_upper = b.faces_upper ∧
    (assemble_blades_on_cylinder mkCylinder solidify b n_blades radius height
        z_base).2.faces_lower = b.faces_lower ∧
    (assemble_blades_on_cylinder mkCylinder solidify b n_blades radius height
        z_base).2.faces_center = b.faces_center :=
  ⟨rfl, rfl, rfl, rfl, rfl, rfl⟩

/-- C8: the tapered thickness equals `τ(x)·(1 - taper·x)`, is bounded by the
plain thickness for `x, taper ∈ [0, 1]`, and coincides with it at
`taper = 0`. -/
theorem tapered_thickness_le (x a b beta taper : ℝ) (hx0 : 0 ≤ x) (hx1 : x ≤ 1)
    (ht0 : 0 ≤ taper) (ht1 : taper ≤ 1) :
    tapered_thickness_distribution x a b beta taper
        = thickness_distribution x a b beta * (1 - taper * x) ∧
    tapered_thickness_distribution x a b beta taper
        ≤ thickness_distribution x a b beta ∧
    tapered_thickness_distribution x a b beta 0 = thickness_distribution x a b beta := by
  refine ⟨rfl, ?_, by simp [tapered_thickness_distribution]⟩
  have h0 : 0 ≤ taper * x := mul_nonneg ht0 hx0
  have h1 : 1 - taper * x ≤ 1 := by linarith
  calc tapered_thickness_distribution x a b beta taper
      = thickness_distribution x a b beta * (1 - taper * x) := rfl
    _ ≤ thickness_distribution x a b beta * 1 :=
        mul_le_mul_of_nonneg_left h1 (thickness_nonneg x a b beta)
    _ = thickness_distribution x a b beta := mul_one _

/-- Witness for C8 at `x = 1/2`, `taper = 1/2`, `a = 1/5`, `b = 4/5`,
`beta = 1`. -/
theorem tapered_thickness_le_witness :
    ((0:ℝ) ≤ 1 / 2 ∧ (1 / 2 : ℝ) ≤ 1) ∧
    tapered_thickness_distribution (1 / 2) (1 / 5) (4 / 5) 1 (1 / 2)
      ≤ thickness_distribution (1 / 2) (1 / 5) (4 / 5) 1 :=
  ⟨⟨by norm_num, by norm_num⟩,
   (tapered_thickness_le (1 / 2) (1 / 5) (4 / 5) 1 (1 / 2) (by norm_num)
      (by norm_num) (by norm_num) (by norm_num)).2.1⟩

/-- C7 counterexample: at `beta = 0` the thickness profile is `0^0 = 1` at
`x = 0` (numpy evaluates `0.0 ** 0.0` to `1.0`), not 0 as claimed for every
`beta`. -/
theorem thickness_distribution_beta_zero_cex :
    thickness_distribution 0 (1 / 5) (4 / 5) 0 ≠ 0 := by
  have ha : clip (1 / 5 : ℝ) (1 / 10) (3 / 10) = 1 / 5 := by
    rw [clip, min_eq_left (by norm_num), max_eq_right (by norm_num)]
  have hb : clip (4 / 5 : ℝ) (7 / 10) (9 / 10) = 4 / 5 := by
    rw [clip, min_eq_left (by norm_num), max_eq_right (by norm_num)]
  have hval : thickness_distribution 0 (1 / 5) (4 / 5) 0 = 1 := by
    simp only [thickness_distribution, ha, hb]
    norm_num [Real.cos_zero, Real.rpow_zero]
  rw [hval]; norm_num

/-- C7 (amended): for `a` in `[0.1, 0.3]`, `b` in `[0.7, 0.9]`, `a < b`, and
positive `beta`, the thickness profile is 0 at the chord ends and exactly 1
on `[a, b]`.  (The original claim over every `beta` fails at `beta = 0`.) -/
theorem thickness_distribution_flat (a b beta : ℝ) (ha1 : 1 / 10 ≤ a)
    (ha2 : a ≤ 3 / 10) (hb1 : 7 / 10 ≤ b) (hb2 : b ≤ 9 / 10) (hab : a < b)
    (hbeta : 0 < beta) :
    thickness_distribution 0 a b beta = 0 ∧
    thickness_distribution 1 a b beta = 0 ∧
    ∀ x, a ≤ x → x ≤ b → thickness_distribution x a b beta = 1 := by
  have hca : clip a (1 / 10) (3 / 10) = a := by
    rw [clip, min_eq_left ha2, max_eq_right ha1]
  have hcb : clip b (7 / 10) (9 / 10) = b := by
    rw [clip, min_eq_left hb2, max_eq_right hb1]
  have hab' : a ≤ b := hab.le
  have ha0 : 0 < a := by linarith
  have hblt : b < 1 := by linarith
  refine ⟨?_, ?_, ?_⟩
  · simp only [thickness_distribution, hca, hcb, if_pos hab']
    rw [if_neg (by linarith : ¬ b ≤ (0:ℝ)), if_pos (by linarith : (0:ℝ) ≤ a),
      if_pos ha0, mul_zero, zero_div, Real.cos_zero]
    rw [show ((1:ℝ) - 1) / 2 = 0 from by norm_num, Real.zero_rpow hbeta.ne']
  · simp only [thickness_distribution, hca, hcb, if_pos hab']
    rw [if_pos hblt.le, if_pos hblt,
      show Real.pi * (1 - b) / (1 - b) = Real.pi from by
        rw [mul_div_assoc, div_self (by linarith : (1:ℝ) - b ≠ 0), mul_one],
      Real.cos_pi, show ((1:ℝ) + -1) / 2 = 0 from by norm_num,
      Real.zero_rpow hbeta.ne']
  · intro x hax hxb
    simp only [thickness_distribution, hca, hcb, if_pos hab']
    rcases eq_or_lt_of_le hxb with rfl | hxb'
    · rw [if_pos le_rfl, if_pos hblt, sub_self, mul_zero, zero_div,
        Real.cos_zero, show ((1:ℝ) + 1) / 2 = 1 from by norm_num, Real.one_rpow]
    · rw [if_neg (not_le.mpr hxb')]
      rcases eq_or_lt_of_le hax with rfl | hax'
      · rw [if_pos le_rfl, if_pos ha0,
          show Real.pi * a / a = Real.pi from by
            rw [mul_div_assoc, div_self ha0.ne', mul_one],
          Real.cos_pi, show ((1:ℝ) - -1) / 2 = 1 from by norm_num, Real.one_rpow]
      · rw [if_neg (not_le.mpr hax')]

/-- Witness for C7 (amended) at `a = 1/5`, `b = 4/5`, `beta = 1`,
evaluated at the chord ends and at the interior point `x = 1/2`. -/
theorem thickness_distribution_flat_witness :
    ((1:ℝ) / 10 ≤ 1 / 5 ∧ (1 / 5 : ℝ) < 4 / 5 ∧ (0:ℝ) < 1) ∧
    thickness_distribution 0 (1 / 5) (4 / 5) 1 = 0 ∧
    thickness_distribution (1 / 2) (1 / 5) (4 / 5) 1 = 1 := by
  have h := thickness_distribution_flat (1 / 5) (4 / 5) 1 (by norm_num)
    (by norm_num) (by norm_num) (by norm_num) (by norm_num) (by norm_num)
  exact ⟨⟨by norm_num, by norm_num, by norm_num⟩, h.1,
    h.2.2 (1 / 2) (by norm_num) (by norm_num)⟩

/-- C1 counterexample: because the source adds `eps = 1e-9` to the
normalizing denominator, the envelope's value at `x = alpha` is
`D/(D + eps) < 1`, not exactly 1; shown at `alpha = 1/2`. -/
theorem beta_distribution_cex : beta_distribution (1 / 2) (1 / 2) ≠ 1 := by
  have hc : clip (1 / 2 : ℝ) eps (1 - eps) = 1 / 2 := by
    rw [clip, eps, min_eq_left (by norm_num), max_eq_right (by norm_num)]
  have hval : beta_distribution (1 / 2) (1 / 2) = (1 / 2) / (1 / 2 + eps) := by
    simp only [beta_distribution, hc]
    rw [show (1:ℝ) - 1 / 2 = 1 / 2 from by norm_num,
      ← Real.rpow_add (by norm_num : (0:ℝ) < 1 / 2),
      show (1 / 2 : ℝ) + 1 / 2 = 1 from by norm_num, Real.rpow_one]
  have hlt : (1 / 2 : ℝ) / (1 / 2 + eps) < 1 := by
    rw [div_lt_one (by norm_num [eps])]
    norm_num [eps]
  rw [hval]
  exact ne_of_lt hlt

/-- C1 (amended): for every `alpha ∈ (0, 1)`, with `a` the `eps`-clamped
`alpha` (equal to `alpha` whenever `alpha ∈ [eps, 1-eps]`), the envelope is
0 at `x = 0` and `x = 1` and attains its maximum over `[0, 1]` at `x = a`;
the peak value is `D/(D + eps) < 1`, not exactly 1. -/
theorem beta_distribution_peak (alpha : ℝ) (h0 : 0 < alpha) (h1 : alpha < 1) :
    beta_distribution 0 alpha = 0 ∧
    beta_distribution 1 alpha = 0 ∧
    (∀ x, 0 ≤ x → x ≤ 1 →
      beta_distribution x alpha ≤ beta_distribution (clip alpha eps (1 - eps)) alpha) ∧
    beta_distribution (clip alpha eps (1 - eps)) alpha < 1 := by
  set a := clip alpha eps (1 - eps) with ha_def
  have heps1 : (0:ℝ) < eps := by norm_num [eps]
  have ha_lb : eps ≤ a := by rw [ha_def, clip]; exact le_max_left _ _
  have ha_ub : a ≤ 1 - eps := by
    rw [ha_def, clip]
    exact max_le (by norm_num [eps]) (min_le_right _ _)
  have ha0 : 0 < a := lt_of_lt_of_le heps1 ha_lb
  have ha1 : a < 1 := lt_of_le_of_lt ha_ub (by norm_num [eps])
  have h1a : 0 < 1 - a := by linarith
  have hD : 0 < a ^ a * (1 - a) ^ (1 - a) :=
    mul_pos (Real.rpow_pos_of_pos ha0 a) (Real.rpow_pos_of_pos h1a (1 - a))
  have hden : 0 < a ^ a * (1 - a) ^ (1 - a) + eps := by linarith
  have hpeak : beta_distribution a alpha
      = (a ^ a * (1 - a) ^ (1 - a)) / (a ^ a * (1 - a) ^ (1 - a) + eps) := by
    simp only [beta_distribution, ← ha_def]
  refine ⟨?_, ?_, ?_, ?_⟩
  · simp only [beta_distribution, ← ha_def]
    rw [Real.zero_rpow ha0.ne', zero_mul, zero_div]
  · simp only [beta_distribution, ← ha_def]
    rw [show (1:ℝ) - 1 = 0 from by norm_num, Real.zero_rpow h1a.ne',
      Real.one_rpow, one_mul, zero_div]
  · intro x hx0 hx1
    have hx1' : 0 ≤ 1 - x := by linarith
    have key := Real.geom_mean_le_arith_mean2_weighted ha0.le h1a.le
      (div_nonneg hx0 ha0.le) (div_nonneg hx1' h1a.le) (by ring)
    have hr1 : a * (x / a) = x := by field_simp
    have hr2 : (1 - a) * ((1 - x) / (1 - a)) = 1 - x := by field_simp
    rw [hr1, hr2] at key
    have hgm : (x / a) ^ a * ((1 - x) / (1 - a)) ^ (1 - a) ≤ 1 := by linarith
    have hpa : (a:ℝ) ^ a ≠ 0 := (Real.rpow_pos_of_pos ha0 a).ne'
    have hpb : ((1:ℝ) - a) ^ (1 - a) ≠ 0 := (Real.rpow_pos_of_pos h1a (1 - a)).ne'
    have hnum : x ^ a * (1 - x) ^ (1 - a)
        = (x / a) ^ a * ((1 - x) / (1 - a)) ^ (1 - a)
            * (a ^ a * (1 - a) ^ (1 - a)) := by
      rw [Real.div_rpow hx0 ha0.le, Real.div_rpow hx1' h1a.le]
      field_simp
    have hle : x ^ a * (1 - x) ^ (1 - a) ≤ a ^ a * (1 - a) ^ (1 - a) := by
      rw [hnum]
      calc (x / a) ^ a * ((1 - x) / (1 - a)) ^ (1 - a)
            * (a ^ a * (1 - a) ^ (1 - a))
          ≤ 1 * (a ^ a * (1 - a) ^ (1 - a)) :=
            mul_le_mul_of_nonneg_right hgm hD.le
        _ = a ^ a * (1 - a) ^ (1 - a) := one_mul _
    rw [hpeak]
    simp only [beta_distribution, ← ha_def]
    exact div_le_div_of_nonneg_right hle hden.le
  · rw [hpeak, div_lt_one hden]
    linarith

/-- Witness for C1 (amended) at `alpha = 1/2`. -/
theorem beta_distribution_peak_witness :
    ((0:ℝ) < 1 / 2 ∧ (1 / 2 : ℝ) < 1) ∧
    beta_distribution 0 (1 / 2) = 0 ∧
    beta_distribution (clip (1 / 2) eps (1 - eps)) (1 / 2) < 1 := by
  have h := beta_distribution_peak (1 / 2) (by norm_num) (by norm_num)
  exact ⟨⟨by norm_num, by norm_num⟩, h.1, h.2.2.2⟩

/-- A flat map whose pieces all have length `n` has length `l.length * n`. -/
lemma length_flatMap_const {α β : Type} (l : List α) (f : α → List β) (n : ℕ)
    (h : ∀ x, (f x).length = n) : (l.flatMap f).length = l.length * n := by
  induction l with
  | nil => simp
  | cons a t ih =>
    simp only [List.flatMap_cons, List.length_append, h, ih, List.length_cons]
    ring

/-- The chordwise sample has exactly `N` points. -/
lemma linspace01_length (N : ℕ) : (linspace01 N).length = N := by
  rw [linspace01, List.length_map, List.length_range]

/-- Each layer contributes exactly `N` vertices. -/
lemma layer_verts_length (bl : Blade3D) (i N : ℕ) (s : ℝ) :
    (layer_verts bl i N s).length = N := by
  simp only [layer_verts]
  rw [List.length_map, linspace01_length]

/-- The stacked upper vertex cloud has `L * N` points. -/
lemma verticesUpper_length (bl : Blade3D) (N : ℕ) :
    (verticesUpper bl N).length = bl.layers.length * N := by
  rw [verticesUpper,
    length_flatMap_const _ _ N (fun i => layer_verts_length bl i N 1),
    List.length_range]

/-- The stacked lower vertex cloud has `L * N` points. -/
lemma verticesLower_length (bl : Blade3D) (N : ℕ) :
    (verticesLower bl N).length = bl.layers.length * N := by
  rw [verticesLower,
    length_flatMap_const _ _ N (fun i => layer_verts_length bl i N (-1)),
    List.length_range]

/-- The stacked center vertex cloud has `L * N` points. -/
lemma verticesCenter_length (bl : Blade3D) (N : ℕ) :
    (verticesCenter bl N).length = bl.layers.length * N := by
  rw [verticesCenter,
    length_flatMap_const _ _ N (fun i => layer_verts_length bl i N 0),
    List.length_range]

/-- Every quad produced by `build_faces` references only indices below
`L * N`. -/
lemma build_faces_lt (N L : ℕ) : ∀ q ∈ build_faces N L, quad_lt q (L * N) := by
  intro q hq
  simp only [build_faces, List.mem_flatMap, List.mem_map, List.mem_range] at hq
  obtain ⟨i, hi, j, hj, rfl⟩ := hq
  have hL : i + 2 ≤ L := by omega
  have hjN : j + 1 < N := by omega
  have hv2 : (i + 1) * N + (j + 1) < L * N := by
    have h1 : (i + 1) * N + (j + 1) < (i + 1) * N + N := Nat.add_lt_add_left hjN _
    have h2 : (i + 1) * N + N = (i + 2) * N := by ring
    have h3 : (i + 2) * N ≤ L * N := Nat.mul_le_mul_right N hL
    linarith
  have hmono : i * N ≤ (i + 1) * N := Nat.mul_le_mul_right N (by omega)
  exact ⟨by linarith, by linarith, by linarith, by linarith⟩

/-- On success, `generate_surface` returns exactly the stacked clouds and
the shared `build_faces` arrays. -/
lemma generate_surface_ok (bl : Blade3D) (N : ℕ) (sd : SurfaceData)
    (hgen : generate_surface bl N = .ok sd) :
    sd = ⟨verticesUpper bl N, verticesLower bl N, verticesCenter bl N,
          build_faces N bl.layers.length, build_faces N bl.layers.length,
          build_faces N bl.layers.length⟩ := by
  simp only [generate_surface] at hgen
  split_ifs at hgen
  all_goals first
    | exact (Except.ok.inj hgen).symm
    | cases hgen

/-- C2: after a successful `generate_surface` with `N` chord points on a
blade with at least two layers, each of the three vertex caches holds
exactly `L * N` points and every face index is strictly below `L * N`. -/
theorem generate_surface_counts (bl : Blade3D) (N : ℕ) (sd : SurfaceData)
    (hL : 2 ≤ bl.layers.length)
    (hgen : generate_surface bl N = .ok sd) :
    sd.vertices_upper.length = bl.layers.length * N ∧
    sd.vertices_lower.length = bl.layers.length * N ∧
    sd.vertices_center.length = bl.layers.length * N ∧
    (∀ q ∈ sd.faces_upper, quad_lt q (bl.layers.length * N)) ∧
    (∀ q ∈ sd.faces_lower, quad_lt q (bl.layers.length * N)) ∧
    (∀ q ∈ sd.faces_center, quad_lt q (bl.layers.length * N)) := by
  rw [generate_surface_ok bl N sd hgen]
  exact ⟨verticesUpper_length bl N, verticesLower_length bl N,
    verticesCenter_length bl N, build_faces_lt N bl.layers.length,
    build_faces_lt N bl.layers.length, build_faces_lt N bl.layers.length⟩

/-- Witness for C2 on the concrete two-layer blade with `N = 2`. -/
theorem generate_surface_counts_witness :
    2 ≤ twoLayerBlade.layers.length ∧
    generate_surface twoLayerBlade 2 =
      .ok ⟨verticesUpper twoLayerBlade 2, verticesLower twoLayerBlade 2,
           verticesCenter twoLayerBlade 2, build_faces 2 2, build_faces 2 2,
           build_faces 2 2⟩ ∧
    (verticesUpper twoLayerBlade 2).length = twoLayerBlade.layers.length * 2 := by
  have h := generate_surface_counts twoLayerBlade 2
    ⟨verticesUpper twoLayerBlade 2, verticesLower twoLayerBlade 2,
     verticesCenter twoLayerBlade 2, build_faces 2 2, build_faces 2 2,
     build_faces 2 2⟩ (by decide) rfl
  exact ⟨by decide, rfl, h.1⟩

/-- The loft produces `(L-1)*(N-1)` quads. -/
lemma build_faces_length (N L : ℕ) :
    (build_faces N L).length = (L - 1) * (N - 1) := by
  rw [build_faces, length_flatMap_const _ _ (N - 1) (fun i => by simp),
    List.length_range]

/-- C6 counterexample: a blade with two layers (so the claimed `L ≥ 2`
precondition holds) still fails face building when `points_per_chord = 1`,
with the very same empty-`np.hstack` failure that a single-layer blade
produces; the failure is not distinct to the layer precondition. -/
theorem generate_surface_two_layer_fail_cex :
    2 ≤ twoLayerBlade.layers.length ∧
    generate_surface twoLayerBlade 1 = .error .emptyHstack :=
  ⟨by decide, rfl⟩

/-- C6 (amended): the source has no dedicated `InsufficientLayers` error;
face building fails through generic empty-concatenation errors, and it
succeeds exactly when there are at least 2 layers and at least 2 chord
points.  (With no layers the earlier `np.vstack` raises instead.) -/
theorem generate_surface_ok_iff (bl : Blade3D) (N : ℕ) :
    (∃ sd, generate_surface bl N = .ok sd) ↔
      2 ≤ bl.layers.length ∧ 2 ≤ N := by
  have hbf := build_faces_length N bl.layers.length
  simp only [generate_surface]
  split_ifs with h1 h2
  · constructor
    · rintro ⟨sd, hsd⟩; cases hsd
    · rintro ⟨hL, _⟩; omega
  · constructor
    · rintro ⟨sd, hsd⟩; cases hsd
    · rintro ⟨hL, hN⟩
      rw [hbf] at h2
      rcases Nat.mul_eq_zero.mp h2 with h | h <;> omega
  · constructor
    · intro _
      rw [hbf] at h2
      have := Nat.mul_ne_zero_iff.mp h2
      omega
    · intro _
      exact ⟨_, rfl⟩

/-- C3: with populated caches and no pre-existing `z_coords` attribute,
`assemble_blades_on_cylinder` fails with the span error exactly when
`height < span` (span being the extent of the combined cached upper and
lower z coordinates), and otherwise returns the merged mesh. -/
theorem assemble_span_check (mkCylinder : ℝ → ℝ → Mesh)
    (solidify : BladeState → Mesh) (b : BladeState) (n_blades : ℕ)
    (radius height z_base : ℝ) (hz : b.z_coords = none)
    (hne : blade_z_all b ≠ []) :
    ((assemble_blades_on_cylinder mkCylinder solidify b n_blades radius height
        z_base).1 = .error .spanExceedsHeight ↔ height < cached_span b) ∧
    (cached_span b ≤ height →
      (assemble_blades_on_cylinder mkCylinder solidify b n_blades radius height
        z_base).1 =
        .ok (assembled_mesh mkCylinder solidify b n_blades radius height z_base)) := by
  rcases hza : blade_z_all b with _ | ⟨z, zs⟩
  · exact absurd hza hne
  · have hspan : cached_span b = zs.foldl max z - zs.foldl min z := by
      rw [cached_span, hza]
    have hres : (assemble_blades_on_cylinder mkCylinder solidify b n_blades radius
        height z_base).1 =
        if height < zs.foldl max z - zs.foldl min z then .error .spanExceedsHeight
        else .ok (assembled_mesh mkCylinder solidify b n_blades radius height z_base) := by
      simp only [assemble_blades_on_cylinder, hz, hza, assembled_mesh, blade_z_shift]
    constructor
    · rw [hres]
      split_ifs with hlt
      · exact iff_of_true rfl (by rw [hspan]; exact hlt)
      · refine iff_of_false (by simp) ?_
        rw [hspan]
        exact hlt
    · intro hle
      rw [hspan] at hle
      rw [hres, if_neg (not_lt.mpr hle)]

/-- Witness for C3: the spec's negative scenario, a blade spanning `0.21`
against a cylinder of height `0.1`, fails with the span error. -/
theorem assemble_span_check_witness :
    bladeStateTest.z_coords = none ∧ blade_z_all bladeStateTest ≠ [] ∧
    (assemble_blades_on_cylinder mkCylinderTest solidifyTest bladeStateTest 6
        (121 / 1000) (1 / 10) 0).1 = .error .spanExceedsHeight := by
  have hne : blade_z_all bladeStateTest ≠ [] := by
    simp [blade_z_all, bladeStateTest]
  have hspan : cached_span bladeStateTest = max 0 (21 / 100) - min 0 (21 / 100) := rfl
  have h := assemble_span_check mkCylinderTest solidifyTest bladeStateTest 6
    (121 / 1000) (1 / 10) 0 rfl hne
  refine ⟨rfl, hne, h.1.mpr ?_⟩
  rw [hspan, max_eq_right (by norm_num : (0:ℝ) ≤ 21 / 100),
    min_eq_left (by norm_num : (0:ℝ) ≤ 21 / 100)]
  norm_num

/-- The first polar grid value is 0. -/
lemma hemi_theta_zero : hemi_theta 0 = 0 := by
  simp [hemi_theta]

/-- The last polar grid value is exactly `π/2`. -/
lemma hemi_theta_last : hemi_theta (n_theta - 1) = Real.pi / 2 := by
  rw [hemi_theta]
  simp only [n_theta]
  push_cast
  ring

/-- C5 counterexample: for `radius_base = 1`, `z_base = 0` the bottom
hemisphere has a vertex on the base circle (squared distance 1 from the
axis, only attained on the polar-angle-`π/2` rim) whose z coordinate is 1,
not `z_base = 0`: the code places the base circle at `z_base + radius_base`,
contradicting its own comment and the claim. -/
theorem create_diffuser_bottom_cex :
    ∃ m, create_diffuser "hemisphere" 1 1 1 0 "bottom" = .ok m ∧
      ∃ v ∈ m.verts, v.1 ^ (2 : ℕ) + v.2.1 ^ (2 : ℕ) = 1 ∧ v.2.2 ≠ 0 := by
  have h63 : hemi_theta 63 = Real.pi / 2 := hemi_theta_last
  have hph0 : hemi_phi 0 = 0 := by simp [hemi_phi]
  refine ⟨⟨hemi_verts 1 0 true, hemi_faces⟩, rfl, hemi_vert 1 0 true 63 0, ?_, ?_, ?_⟩
  · simp only [hemi_verts, List.mem_flatMap, List.mem_map, List.mem_range]
    exact ⟨63, by norm_num [n_theta], 0, by norm_num [n_phi], rfl⟩
  · have hx : (hemi_vert 1 0 true 63 0).1
        = 1 * Real.sin (hemi_theta 63) * Real.cos (hemi_phi 0) := rfl
    have hy : (hemi_vert 1 0 true 63 0).2.1
        = 1 * Real.sin (hemi_theta 63) * Real.sin (hemi_phi 0) := rfl
    rw [hx, hy, h63, hph0, Real.sin_pi_div_two, Real.cos_zero, Real.sin_zero]
    norm_num
  · have hzv : (hemi_vert 1 0 true 63 0).2.2
        = -1 * Real.cos (hemi_theta 63) + 0 + 1 := rfl
    rw [hzv, h63, Real.cos_pi_div_two]
    norm_num

/-- C5 (amended): for `radius_base > 0` the bottom hemisphere's apex row
(polar angle 0) lies at `z = z_base` and its base circle (polar angle `π/2`)
at `z = z_base + radius_base`; the apex is below the base circle. -/
theorem create_diffuser_bottom_hemisphere (radius_base radius_top height z_base : ℝ)
    (hR : 0 < radius_base) :
    ∃ m, create_diffuser "hemisphere" radius_base radius_top height z_base "bottom"
        = .ok m ∧
      ∀ j, j < n_phi →
        hemi_vert radius_base z_base true 0 j ∈ m.verts ∧
        (hemi_vert radius_base z_base true 0 j).2.2 = z_base ∧
        hemi_vert radius_base z_base true (n_theta - 1) j ∈ m.verts ∧
        (hemi_vert radius_base z_base true (n_theta - 1) j).2.2
          = z_base + radius_base ∧
        z_base < z_base + radius_base := by
  refine ⟨⟨hemi_verts radius_base z_base true, hemi_faces⟩, rfl, fun j hj =>
    ⟨?_, ?_, ?_, ?_, by linarith⟩⟩
  · simp only [hemi_verts, List.mem_flatMap, List.mem_map, List.mem_range]
    exact ⟨0, by norm_num [n_theta], j, hj, rfl⟩
  · have hzv : (hemi_vert radius_base z_base true 0 j).2.2
        = -radius_base * Real.cos (hemi_theta 0) + z_base + radius_base := rfl
    rw [hzv, hemi_theta_zero, Real.cos_zero]
    ring
  · simp only [hemi_verts, List.mem_flatMap, List.mem_map, List.mem_range]
    exact ⟨n_theta - 1, by norm_num [n_theta], j, hj, rfl⟩
  · have hzv : (hemi_vert radius_base z_base true (n_theta - 1) j).2.2
        = -radius_base * Real.cos (hemi_theta (n_theta - 1)) + z_base + radius_base := rfl
    rw [hzv, hemi_theta_last, Real.cos_pi_div_two]
    ring

/-- Witness for C5 (amended) at `radius_base = 1`, `z_base = 5`. -/
theorem create_diffuser_bottom_hemisphere_witness :
    (0:ℝ) < 1 ∧
    ∃ m, create_diffuser "hemisphere" 1 2 3 5 "bottom" = .ok m ∧
      hemi_vert 1 5 true 0 0 ∈ m.verts ∧ (hemi_vert 1 5 true 0 0).2.2 = 5 := by
  obtain ⟨m, hm, hp⟩ := create_diffuser_bottom_hemisphere 1 2 3 5 (by norm_num)
  have h0 := hp 0 (by norm_num [n_phi])
  exact ⟨by norm_num, m, hm, h0.1, h0.2.1⟩

/-- Duplicate-face removal never lengthens the face list. -/
lemma dedup_faces_aux_length_le (l : List (ℕ × ℕ × ℕ)) :
    ∀ seen, (dedup_faces_aux seen l).length ≤ l.length := by
  induction l with
  | nil => intro seen; simp [dedup_faces_aux]
  | cons f fs ih =>
    intro seen
    simp only [dedup_faces_aux]
    split_ifs
    · exact le_trans (ih seen) (Nat.le_succ _)
    · simpa using Nat.succ_le_succ (ih (f :: seen))

/-- On any stitched upper/lower point-cloud pair, duplicate removal and
unreferenced-vertex removal never increase the face or vertex counts, and
hole filling only appends faces — so the post-processed face count is the
deduplicated count plus the number of fill triangles. -/
theorem post_process_face_counts (upper lower : List (ℝ × ℝ × ℝ)) (L : ℕ) :
    (remove_unreferenced_vertices (dedup_mesh (solid_raw upper lower L))).faces.length
        ≤ (solid_raw upper lower L).faces.length ∧
    (remove_unreferenced_vertices (dedup_mesh (solid_raw upper lower L))).verts.length
        ≤ (solid_raw upper lower L).verts.length ∧
    ∃ fills,
      (generate_solid_from_surfaces upper lower L).faces
        = (remove_unreferenced_vertices (dedup_mesh (solid_raw upper lower L))).faces
            ++ fills := by
  refine ⟨?_, ?_, ?_⟩
  · simp only [remove_unreferenced_vertices, dedup_mesh, dedup_faces,
      List.length_map]
    exact dedup_faces_aux_length_le _ []
  · simp only [remove_unreferenced_vertices, dedup_mesh, List.length_map]
    simpa using
      List.length_filter_le _ (List.range (solid_raw upper lower L).verts.length)
  · exact ⟨_, by
      simp only [generate_solid_from_surfaces, post_process, fill_holes]
      rw [List.append_assoc]⟩

/-- On the concrete 2-layer, 2-chord-point cloud pair the raw stitched solid
has 8 faces; post-processing fills the two quadrilateral
leading/trailing-edge holes with two triangles each, yielding 12 faces —
more than before post-processing. -/
theorem post_process_can_add_faces :
    (solid_raw upperCloudTest lowerCloudTest 2).faces.length = 8 ∧
    (generate_solid_from_surfaces upperCloudTest lowerCloudTest 2).faces.length = 12 ∧
    ¬ ((generate_solid_from_surfaces upperCloudTest lowerCloudTest 2).faces.length
        ≤ (solid_raw upperCloudTest lowerCloudTest 2).faces.length) :=
  ⟨by decide, by decide, by decide⟩

end Theorems

end BladeOpt
